import Mathlib

/-!
# Verification of the Liberal Lions batting-order tracker

Shallow embedding of the core logic of `src/app/page.tsx` (a React page):
the batting-result classifier `normalizeResult`, the per-player counter
update `updateStatsForResult` / `updateBattingResult`, roster operations
(`addPlayer`, `deletePlayer`, `movePlayer`), the inning cursor transitions,
and the team aggregator `getTeamStats`.

JavaScript strings are modelled as Lean `String`; JS `number` counters as
`Int` (they can transiently go negative before the `Math.max(0, ·)` clamp);
the `battingStats` object keyed by player index as `Nat → Option BattingStats`;
a JS array of result strings as `List String`, where out-of-range reads give
`""` (JS `undefined` is falsy exactly like `""` in every use site) and
out-of-range writes pad with `""` (JS array holes, likewise falsy).
-/

namespace Lions

/-- Whitespace recognised by JS `String.prototype.trim` (ASCII part plus
no-break space; the classifier only ever compares trimmed text to
non-whitespace tokens, so the exact whitespace set is immaterial). -/
def isJsWhitespace (c : Char) : Bool :=
  c == ' ' || c == '\t' || c == '\n' || c == '\r' ||
  c == '\x0b' || c == '\x0c' || c == ' '

/-- JS `text.trim()`: strip leading and trailing whitespace. -/
def jsTrim (s : String) : String :=
  ⟨((s.data.dropWhile isJsWhitespace).reverse.dropWhile isJsWhitespace).reverse⟩

/-- JS `text.toLowerCase()` (ASCII case-folding; the Japanese tokens the
classifier searches for are unaffected by case-folding in both systems). -/
def jsToLower (s : String) : String :=
  ⟨s.data.map Char.toLower⟩

/-- Does `l` start with `sub`? (character-list level) -/
def listStartsWith : List Char → List Char → Bool
  | _, [] => true
  | [], _ :: _ => false
  | c :: cs, d :: ds => c == d && listStartsWith cs ds

/-- Does `l` contain `sub` as a contiguous run? (character-list level) -/
def listHasSub : List Char → List Char → Bool
  | [], sub => sub.isEmpty
  | c :: cs, sub => listStartsWith (c :: cs) sub || listHasSub cs sub

/-- JS `t.includes(sub)`: substring test. -/
def strIncludes (t sub : String) : Bool :=
  listHasSub t.data sub.data

/-- The check chain of `normalizeResult` from `src/app/page.tsx` lines
261-279, applied to the already folded and trimmed text `t`: classify into
an outcome code, testing in the source's order (generic hit first, then
double, triple, home run, strikeout, walk, hit-by-pitch, sacrifice fly,
sacrifice bunt, grounder, fly, error, else custom). -/
def normalizeCore (t : String) : String :=
  if strIncludes t "安" || strIncludes t "ヒット" || t == "h" then "hit"
    else if strIncludes t "二塁打" || t == "2b" then "2hit"
    else if strIncludes t "三塁打" || t == "3b" then "3hit"
    else if strIncludes t "本塁打" || strIncludes t "ホームラン" || t == "hr" then "homerun"
    else if strIncludes t "三振" || t == "k" then "strikeout"
    else if strIncludes t "四球" || t == "bb" then "walk"
    else if strIncludes t "死球" || t == "hbp" then "hbp"
    else if strIncludes t "犠飛" || t == "sf" then "sacrifice_fly"
    else if strIncludes t "犠打" || t == "sh" then "sacrifice_bunt"
    else if strIncludes t "ゴロ" then "grounder"
    else if strIncludes t "フライ" || strIncludes t "飛" then "fly"
    else if strIncludes t "エラー" || strIncludes t "失" then "error"
    else "custom"

/-- `normalizeResult` entry point: blank input classifies as the empty
outcome; otherwise the chain above runs on `t = text.toLowerCase().trim()`. -/
def normalizeResult (text : String) : String :=
  if jsTrim text = "" then "" else normalizeCore (jsTrim (jsToLower text))

example : normalizeResult "三振" = "strikeout" := by decide
example : normalizeResult "左安" = "hit" := by decide
example : normalizeResult "四球" = "walk" := by decide
example : normalizeResult "  " = "" := by decide
example : normalizeResult "2B" = "2hit" := by decide

/-- One player's batting line (`BattingStats` in the source): cached
counters plus the raw per-plate-appearance result strings. -/
structure BattingStats where
  hits : Int
  atBats : Int
  walks : Int
  results : List String
deriving DecidableEq

/-- Outcome codes that do not count as an at-bat (source line 283). -/
def nonAtBatResults : List String := ["walk", "hbp", "sacrifice_bunt", "sacrifice_fly"]

/-- Outcome codes that count as a hit (source line 284). -/
def hitResults : List String := ["hit", "2hit", "3hit", "homerun"]

/-- `updateStatsForResult` from the source (lines 282-295): apply the
counter deltas of one classified outcome `result` with the given
`multiplier` (+1 to record, -1 to undo). -/
def updateStatsForResult (stats : BattingStats) (result : String) (multiplier : Int) :
    BattingStats :=
  let s1 := if result ≠ "" ∧ ¬ nonAtBatResults.contains result
            then { stats with atBats := stats.atBats + multiplier } else stats
  let s2 := if hitResults.contains result
            then { s1 with hits := s1.hits + multiplier } else s1
  if (["walk", "hbp"] : List String).contains result
  then { s2 with walks := s2.walks + multiplier } else s2

/-- JS read `arr[i]`: out-of-range reads give `undefined`, which every use
site treats exactly like the empty string (falsy). -/
def listGet (l : List String) (i : Nat) : String := l.getD i ""

/-- JS write `arr[i] = v`: in-range writes replace, out-of-range writes
extend the array, padding the skipped slots with holes (`undefined`,
falsy like `""`). -/
def listSet : List String → Nat → String → List String
  | [], 0, v => [v]
  | [], i + 1, v => "" :: listSet [] i v
  | _ :: xs, 0, v => v :: xs
  | x :: xs, i + 1, v => x :: listSet xs i v

/-- The per-player core of `updateBattingResult` (source lines 236-254):
undo the previously stored result's deltas, store the new raw text, apply
the new deltas when the text is non-blank, then clamp the counters at 0. -/
def applyResult (stats0 : BattingStats) (atBatIndex : Nat) (result : String) :
    BattingStats :=
  let oldResult := listGet stats0.results atBatIndex
  let s1 := if oldResult ≠ ""
            then updateStatsForResult stats0 (normalizeResult oldResult) (-1) else stats0
  let s2 := { s1 with results := listSet s1.results atBatIndex result }
  let s3 := if jsTrim result ≠ ""
            then updateStatsForResult s2 (normalizeResult result) 1 else s2
  { s3 with hits := max 0 s3.hits, atBats := max 0 s3.atBats, walks := max 0 s3.walks }

/-- A fresh all-zero batting line (the initializer used throughout the source). -/
def emptyStats : BattingStats := ⟨0, 0, 0, []⟩

/-- The game-state record of the source: inning cursor, batter cursor and
the per-player stats object (JS object keyed by roster index). -/
structure GameState where
  inning : Int
  isTopHalf : Bool
  currentBatterIndex : Int
  battingStats : Nat → Option BattingStats

/-- `updateBattingResult` from the source (lines 230-258) at the game-state
level: initialize the player's entry if absent, update it with
`applyResult`, leave everything else alone. -/
def updateBattingResult (gs : GameState) (playerIndex atBatIndex : Nat)
    (result : String) : GameState :=
  let current := (gs.battingStats playerIndex).getD emptyStats
  let stats := applyResult current atBatIndex result
  { gs with battingStats := fun k => if k = playerIndex then some stats else gs.battingStats k }

/-- The "前へ" (retreat) button handler (source lines 615-622): go back one
half-inning, with both branches guarded by `inning > 1`. -/
def retreat (gs : GameState) : GameState :=
  if ¬ gs.isTopHalf ∧ gs.inning > 1 then { gs with isTopHalf := true }
  else if gs.isTopHalf ∧ gs.inning > 1 then { gs with isTopHalf := false, inning := gs.inning - 1 }
  else gs

/-- A roster entry (`Player` in the source). -/
structure Player where
  name : String
  pos : String
  face : String
deriving DecidableEq

/-- Fallback roster entry for out-of-range list reads (never produced by
the in-range operations the theorems are about). -/
def defPlayer : Player := ⟨"", "", ""⟩

/-- `addPlayer` from the source (lines 135-147): a blank (all-whitespace)
name aborts with an alert and touches nothing (`false` flag); otherwise the
trimmed player is appended and a zero stats entry is created at the new
last index (`true` flag). -/
def addPlayer (players : List Player) (gs : GameState) (playerName playerPos : String) :
    List Player × GameState × Bool :=
  if jsTrim playerName = "" then (players, gs, false)
  else
    let newPlayers := players ++ [⟨jsTrim playerName, playerPos, "😊"⟩]
    (newPlayers,
     { gs with battingStats :=
         fun k => if k = newPlayers.length - 1 then some emptyStats else gs.battingStats k },
     true)

/-- The stats re-keying loop of `deletePlayer` (source lines 173-181): the
loop copies each entry with key `< index` unchanged and each entry with key
`> index` to key minus one, and drops the entry at `index`; extensionally,
the new object maps `k` to the old entry at `k` when `k < index` and to the
old entry at `k + 1` otherwise. -/
def deleteStats (bs : Nat → Option BattingStats) (index : Nat) :
    Nat → Option BattingStats :=
  fun k => if k < index then bs k else bs (k + 1)

/-- `deletePlayer` from the source (lines 170-185), after the confirm
dialog: drop the roster entry at `index` and re-key the stats object. -/
def deletePlayer (players : List Player) (gs : GameState) (index : Nat) :
    List Player × GameState :=
  (players.eraseIdx index, { gs with battingStats := deleteStats gs.battingStats index })

/-- `movePlayer` from the source (lines 188-202): swap the roster entries
and the stats entries at `index` and `index ∓ 1` in one operation; out-of-
range targets make the whole call a no-op. -/
def movePlayer (players : List Player) (gs : GameState) (index : Nat) (up : Bool) :
    List Player × GameState :=
  let newIndex : Int := if up then (index : Int) - 1 else (index : Int) + 1
  if newIndex < 0 ∨ (players.length : Int) ≤ newIndex then (players, gs)
  else
    let n := newIndex.toNat
    let newPlayers := (players.set index (players.getD n defPlayer)).set n
      (players.getD index defPlayer)
    let temp := gs.battingStats index
    let newStats : Nat → Option BattingStats :=
      fun k => if k = n then temp else if k = index then gs.battingStats n
               else gs.battingStats k
    (newPlayers, { gs with battingStats := newStats })

/-- The team aggregate record returned by `getTeamStats`.  The source
formats `avg` and `obp` with `toFixed(3)` or shows the sentinel `".---"`;
here the two display fields carry the exact rational that gets formatted,
with `none` standing for the sentinel. -/
structure TeamStats where
  totalHits : Int
  totalAtBats : Int
  totalWalks : Int
  avg : Option ℚ
  obp : Option ℚ
deriving DecidableEq

/-- `getTeamStats` from the source (lines 298-315): sum the cached counters
over all stats entries (`Object.values` order is irrelevant to sums), then
compute the two rates, each replaced by the sentinel (`none`) when its
denominator is not positive. -/
def getTeamStats (allStats : List BattingStats) : TeamStats :=
  let totalHits := allStats.foldl (fun acc s => acc + s.hits) (0 : Int)
  let totalAtBats := allStats.foldl (fun acc s => acc + s.atBats) (0 : Int)
  let totalWalks := allStats.foldl (fun acc s => acc + s.walks) (0 : Int)
  let avg : Option ℚ :=
    if 0 < totalAtBats then some ((totalHits : ℚ) / (totalAtBats : ℚ)) else none
  let obp : Option ℚ :=
    if 0 < totalAtBats + totalWalks
    then some (((totalHits : ℚ) + (totalWalks : ℚ)) / ((totalAtBats : ℚ) + (totalWalks : ℚ)))
    else none
  ⟨totalHits, totalAtBats, totalWalks, avg, obp⟩

/-- Claim-side count: how many stored results satisfy `p` (an `Int` because
it is compared with the `Int` counters). -/
def countP (p : String → Bool) (l : List String) : Int :=
  ((l.filter p).length : Int)

/-- A stored raw result classifies as a hit. -/
def pHit (r : String) : Bool := hitResults.contains (normalizeResult r)

/-- A stored raw result classifies as a (non-empty) at-bat outcome. -/
def pAtBat (r : String) : Bool :=
  normalizeResult r ≠ "" ∧ ¬ nonAtBatResults.contains (normalizeResult r)

/-- A stored raw result classifies as a walk or hit-by-pitch. -/
def pWalk (r : String) : Bool :=
  (["walk", "hbp"] : List String).contains (normalizeResult r)

/-- The cached counters agree with the values recomputed from the stored
results (the invariant of claim C2). -/
def countsInv (s : BattingStats) : Prop :=
  s.hits = countP pHit s.results ∧ s.atBats = countP pAtBat s.results ∧
  s.walks = countP pWalk s.results

/-- Hit-counter weight a stored raw result contributes. -/
def dHit (r : String) : Int := if pHit r then 1 else 0

/-- At-bat-counter weight a stored raw result contributes. -/
def dAtBat (r : String) : Int := if pAtBat r then 1 else 0

/-- Walk-counter weight a stored raw result contributes. -/
def dWalk (r : String) : Int := if pWalk r then 1 else 0

theorem usfr_results (s : BattingStats) (res : String) (m : Int) :
    (updateStatsForResult s res m).results = s.results := by
  unfold updateStatsForResult
  split_ifs <;> rfl

theorem usfr_hits (s : BattingStats) (res : String) (m : Int) :
    (updateStatsForResult s res m).hits =
      s.hits + (if hitResults.contains res then m else 0) := by
  unfold updateStatsForResult
  split_ifs <;> simp

theorem usfr_atBats (s : BattingStats) (res : String) (m : Int) :
    (updateStatsForResult s res m).atBats =
      s.atBats + (if res ≠ "" ∧ ¬ nonAtBatResults.contains res then m else 0) := by
  unfold updateStatsForResult
  split_ifs <;> simp

theorem usfr_walks (s : BattingStats) (res : String) (m : Int) :
    (updateStatsForResult s res m).walks =
      s.walks + (if (["walk", "hbp"] : List String).contains res then m else 0) := by
  unfold updateStatsForResult
  split_ifs <;> simp

theorem normalizeResult_of_blank (r : String) (h : jsTrim r = "") :
    normalizeResult r = "" := by
  simp [normalizeResult, h]

theorem dHit_blank (r : String) (h : normalizeResult r = "") : dHit r = 0 := by
  simp [dHit, pHit, h, hitResults]

theorem dAtBat_blank (r : String) (h : normalizeResult r = "") : dAtBat r = 0 := by
  simp [dAtBat, pAtBat, h]

theorem dWalk_blank (r : String) (h : normalizeResult r = "") : dWalk r = 0 := by
  simp [dWalk, pWalk, h]

theorem applyResult_results (s : BattingStats) (i : Nat) (r : String) :
    (applyResult s i r).results = listSet s.results i r := by
  unfold applyResult
  by_cases h1 : listGet s.results i = "" <;> by_cases h2 : jsTrim r = "" <;>
    simp [h1, h2, usfr_results]

theorem applyResult_hits (s : BattingStats) (i : Nat) (r : String) :
    (applyResult s i r).hits =
      max 0 (s.hits - dHit (listGet s.results i) + dHit r) := by
  unfold applyResult
  by_cases h1 : listGet s.results i = ""
  · rw [dHit_blank _ (by rw [h1]; decide)]
    by_cases h2 : jsTrim r = ""
    · rw [dHit_blank _ (normalizeResult_of_blank r h2)]
      simp [h1, h2]
    · simp [h1, h2, usfr_hits, dHit, pHit]
  · by_cases h2 : jsTrim r = ""
    · rw [dHit_blank _ (normalizeResult_of_blank r h2)]
      simp [h1, h2, usfr_hits, dHit, pHit]
      all_goals first | omega | (split_ifs <;> omega)
    · simp [h1, h2, usfr_hits, usfr_results, dHit, pHit]
      all_goals first | omega | (split_ifs <;> omega)

theorem applyResult_atBats (s : BattingStats) (i : Nat) (r : String) :
    (applyResult s i r).atBats =
      max 0 (s.atBats - dAtBat (listGet s.results i) + dAtBat r) := by
  unfold applyResult
  by_cases h1 : listGet s.results i = ""
  · rw [dAtBat_blank _ (by rw [h1]; decide)]
    by_cases h2 : jsTrim r = ""
    · rw [dAtBat_blank _ (normalizeResult_of_blank r h2)]
      simp [h1, h2]
    · simp [h1, h2, usfr_atBats, dAtBat, pAtBat]
  · by_cases h2 : jsTrim r = ""
    · rw [dAtBat_blank _ (normalizeResult_of_blank r h2)]
      simp [h1, h2, usfr_atBats, dAtBat, pAtBat]
      all_goals first | omega | (split_ifs <;> omega)
    · simp [h1, h2, usfr_atBats, usfr_results, dAtBat, pAtBat]
      all_goals first | omega | (split_ifs <;> omega)

theorem applyResult_walks (s : BattingStats) (i : Nat) (r : String) :
    (applyResult s i r).walks =
      max 0 (s.walks - dWalk (listGet s.results i) + dWalk r) := by
  unfold applyResult
  by_cases h1 : listGet s.results i = ""
  · rw [dWalk_blank _ (by rw [h1]; decide)]
    by_cases h2 : jsTrim r = ""
    · rw [dWalk_blank _ (normalizeResult_of_blank r h2)]
      simp [h1, h2]
    · simp [h1, h2, usfr_walks, dWalk, pWalk]
  · by_cases h2 : jsTrim r = ""
    · rw [dWalk_blank _ (normalizeResult_of_blank r h2)]
      simp [h1, h2, usfr_walks, dWalk, pWalk]
      all_goals first | omega | (split_ifs <;> omega)
    · simp [h1, h2, usfr_walks, usfr_results, dWalk, pWalk]
      all_goals first | omega | (split_ifs <;> omega)

theorem countP_cons (p : String → Bool) (x : String) (t : List String) :
    countP p (x :: t) = (if p x then 1 else 0) + countP p t := by
  unfold countP
  rw [List.filter_cons]
  split_ifs <;> simp [Int.add_comm]

theorem countP_nonneg (p : String → Bool) (l : List String) : 0 ≤ countP p l :=
  Int.natCast_nonneg _

theorem countP_listSet (p : String → Bool) (hp : p "" = false) :
    ∀ (l : List String) (i : Nat) (v : String),
      countP p (listSet l i v) =
        countP p l - (if p (listGet l i) then 1 else 0) + (if p v then 1 else 0)
  | [], 0, v => by
      rw [show listSet [] 0 v = v :: [] from rfl, countP_cons]
      simp [listGet, countP, hp]
  | [], i + 1, v => by
      rw [show listSet [] (i + 1) v = "" :: listSet [] i v from rfl, countP_cons,
        countP_listSet p hp [] i v]
      simp [listGet, countP, hp]
  | x :: xs, 0, v => by
      rw [show listSet (x :: xs) 0 v = v :: xs from rfl, countP_cons, countP_cons]
      simp only [listGet, List.getD_cons_zero]
      ring
  | x :: xs, i + 1, v => by
      rw [show listSet (x :: xs) (i + 1) v = x :: listSet xs i v from rfl, countP_cons,
        countP_listSet p hp xs i v, countP_cons]
      simp only [listGet, List.getD_cons_succ]
      ring

theorem listGet_listSet_self : ∀ (l : List String) (i : Nat) (v : String),
    listGet (listSet l i v) i = v
  | [], 0, _ => rfl
  | [], i + 1, v => by
      rw [show listSet [] (i + 1) v = "" :: listSet [] i v from rfl]
      simpa [listGet] using listGet_listSet_self [] i v
  | _ :: _, 0, _ => rfl
  | x :: xs, i + 1, v => by
      rw [show listSet (x :: xs) (i + 1) v = x :: listSet xs i v from rfl]
      simpa [listGet] using listGet_listSet_self xs i v

theorem countsInv_applyResult (s : BattingStats) (i : Nat) (r : String)
    (h : countsInv s) : countsInv (applyResult s i r) := by
  obtain ⟨hh, ha, hw⟩ := h
  refine ⟨?_, ?_, ?_⟩
  · rw [applyResult_hits, applyResult_results, hh]
    simp only [dHit]
    rw [← countP_listSet pHit (by decide) s.results i r]
    exact max_eq_right (countP_nonneg _ _)
  · rw [applyResult_atBats, applyResult_results, ha]
    simp only [dAtBat]
    rw [← countP_listSet pAtBat (by decide) s.results i r]
    exact max_eq_right (countP_nonneg _ _)
  · rw [applyResult_walks, applyResult_results, hw]
    simp only [dWalk]
    rw [← countP_listSet pWalk (by decide) s.results i r]
    exact max_eq_right (countP_nonneg _ _)

/-- C1, counterexample: the input "二塁打安" contains both the
double-indicating token "二塁打" and the generic-hit token "安", yet the
classifier returns "hit", not "2hit": the claimed double-before-hit
priority does not hold (the source tests the generic-hit tokens first). -/
theorem normalizeResult_double_priority_counterexample :
    strIncludes (jsTrim (jsToLower "二塁打安")) "二塁打" = true ∧
    strIncludes (jsTrim (jsToLower "二塁打安")) "安" = true ∧
    normalizeResult "二塁打安" = "hit" ∧ normalizeResult "二塁打安" ≠ "2hit" := by
  decide

/-- C1, amended: the outcome classifier tests the generic-hit tokens first,
before double, triple and home run; in particular any non-blank input
matching a generic-hit token — containing "安", containing "ヒット", or
(folded and trimmed) equalling "h" — classifies as "hit", regardless of
which other category tokens (such as the double token) it also contains. -/
theorem normalizeResult_hit_checked_first (text : String) (h : jsTrim text ≠ "")
    (hh : (strIncludes (jsTrim (jsToLower text)) "安" ||
           strIncludes (jsTrim (jsToLower text)) "ヒット" ||
           jsTrim (jsToLower text) == "h") = true) :
    normalizeResult text = "hit" := by
  unfold normalizeResult normalizeCore
  rw [if_neg h, hh]
  simp

/-- C1, witness: the amended priority fact at the concrete inputs
"二塁打安" and "二塁打ヒット" (each combines the double token with a
different generic-hit token, and each classifies as "hit"). -/
theorem normalizeResult_hit_checked_first_witness :
    normalizeResult "二塁打安" = "hit" ∧ normalizeResult "二塁打ヒット" = "hit" :=
  ⟨normalizeResult_hit_checked_first "二塁打安" (by decide) (by decide),
   normalizeResult_hit_checked_first "二塁打ヒット" (by decide) (by decide)⟩

/-- C2: for every sequence of batting-result updates applied to one
player's stats object starting from the all-zero line, the cached counters
equal the values recomputed from the stored results: `hits` counts results
classified hit/double/triple/homerun, `atBats` counts results with a
non-empty classification outside {walk, hbp, sacrifice bunt, sacrifice
fly}, and `walks` counts results classified walk or hit-by-pitch. -/
theorem counters_match_recount (ops : List (Nat × String)) :
    countsInv (ops.foldl (fun s op => applyResult s op.1 op.2) emptyStats) := by
  suffices h : ∀ s, countsInv s →
      countsInv (ops.foldl (fun s op => applyResult s op.1 op.2) s) by
    exact h emptyStats ⟨rfl, rfl, rfl⟩
  induction ops with
  | nil => exact fun s hs => hs
  | cons op t ih => exact fun s hs => ih _ (countsInv_applyResult s op.1 op.2 hs)

/-- C3, counterexample: with the cursor at inning 1, bottom half, retreat
does not return to the top half — the `inning > 1` guard also blocks the
bottom→top branch, so the claimed unconditional bottom→top mapping fails. -/
theorem retreat_inning1_bottom_counterexample :
    (retreat ⟨1, false, 0, fun _ => none⟩).isTopHalf = false ∧
    (retreat ⟨1, false, 0, fun _ => none⟩).inning = 1 := by
  constructor <;> rfl

/-- C3, amended: retreat maps (inning, bottom) to (inning, top) and
(inning, top) to (inning - 1, bottom) only when inning > 1; when
inning ≤ 1 retreat is a no-op in both halves (not only in the top half),
and the inning never drops below 1. -/
theorem retreat_spec (gs : GameState) :
    (gs.isTopHalf = false → 1 < gs.inning → retreat gs = { gs with isTopHalf := true }) ∧
    (gs.isTopHalf = true → 1 < gs.inning →
      retreat gs = { gs with isTopHalf := false, inning := gs.inning - 1 }) ∧
    (gs.inning ≤ 1 → retreat gs = gs) ∧
    (1 ≤ gs.inning → 1 ≤ (retreat gs).inning) := by
  unfold retreat
  refine ⟨fun hb hi => ?_, fun ht hi => ?_, fun hle => ?_, fun hge => ?_⟩
  · rw [if_pos ⟨by simp [hb], hi⟩]
  · rw [if_neg (by simp [ht]), if_pos ⟨by simp [ht], hi⟩]
  · rw [if_neg (fun hc => absurd hc.2 (by omega)), if_neg (fun hc => absurd hc.2 (by omega))]
  · split_ifs with h1 h2
    · exact hge
    · have h3 := h2.2
      show 1 ≤ gs.inning - 1
      omega
    · exact hge

/-- C3, witness: at (2, bottom) retreat returns (2, top). -/
theorem retreat_spec_witness :
    retreat ⟨2, false, 0, fun _ => none⟩ = ⟨2, true, 0, fun _ => none⟩ :=
  (retreat_spec ⟨2, false, 0, fun _ => none⟩).1 rfl (by norm_num)

/-- C4: applying the same raw text to the same slot twice yields the same
counters (hits, atBats, walks) as applying it once, for every starting
stats object: the second application's undo cancels its reapply exactly. -/
theorem applyResult_idempotent_counters (s : BattingStats) (i : Nat) (r : String) :
    (applyResult (applyResult s i r) i r).hits = (applyResult s i r).hits ∧
    (applyResult (applyResult s i r) i r).atBats = (applyResult s i r).atBats ∧
    (applyResult (applyResult s i r) i r).walks = (applyResult s i r).walks := by
  have hres : listGet (applyResult s i r).results i = r := by
    rw [applyResult_results]
    exact listGet_listSet_self s.results i r
  refine ⟨?_, ?_, ?_⟩
  · rw [applyResult_hits (applyResult s i r) i r, hres, applyResult_hits s i r]
    omega
  · rw [applyResult_atBats (applyResult s i r) i r, hres, applyResult_atBats s i r]
    omega
  · rw [applyResult_walks (applyResult s i r) i r, hres, applyResult_walks s i r]
    omega

/-- C9: adding a player whose name is blank after trimming aborts the
operation with a validation error (`false` flag) and mutates nothing:
players and stats mapping come back exactly as they were. -/
theorem addPlayer_blank_name_aborts (players : List Player) (gs : GameState)
    (name pos : String) (h : jsTrim name = "") :
    addPlayer players gs name pos = (players, gs, false) := by
  simp [addPlayer, h]

/-- C9, witness: adding a whitespace-only name to an empty roster is
rejected and returns the state unchanged. -/
theorem addPlayer_blank_name_aborts_witness :
    addPlayer [] ⟨1, true, 0, fun _ => none⟩ "   " "投" =
      ([], ⟨1, true, 0, fun _ => none⟩, false) :=
  addPlayer_blank_name_aborts [] ⟨1, true, 0, fun _ => none⟩ "   " "投" (by decide)

/-- C10: updating one batting result modifies at most the targeted
player's stats entry (initializing it from the all-zero line when absent);
every other player's entry and the inning, half-inning flag and current
batter index are unchanged. -/
theorem updateBattingResult_frame (gs : GameState) (p i : Nat) (r : String) :
    (updateBattingResult gs p i r).inning = gs.inning ∧
    (updateBattingResult gs p i r).isTopHalf = gs.isTopHalf ∧
    (updateBattingResult gs p i r).currentBatterIndex = gs.currentBatterIndex ∧
    (updateBattingResult gs p i r).battingStats p =
      some (applyResult ((gs.battingStats p).getD emptyStats) i r) ∧
    (∀ q, q ≠ p → (updateBattingResult gs p i r).battingStats q = gs.battingStats q) := by
  refine ⟨rfl, rfl, rfl, ?_, fun q hq => ?_⟩
  · simp [updateBattingResult]
  · simp [updateBattingResult, hq]

/-- C10, witness: updating player 0 on an empty stats map leaves player 1's
entry (and the inning cursor) untouched. -/
theorem updateBattingResult_frame_witness :
    (updateBattingResult ⟨3, true, 2, fun _ => none⟩ 0 0 "安").battingStats 1 = none ∧
    (updateBattingResult ⟨3, true, 2, fun _ => none⟩ 0 0 "安").inning = 3 := by
  have h := updateBattingResult_frame ⟨3, true, 2, fun _ => none⟩ 0 0 "安"
  exact ⟨h.2.2.2.2 1 (by decide), h.1⟩

/-- The closed set of non-empty outcome codes the classifier can return. -/
def outcomeCodes : List String :=
  ["hit", "2hit", "3hit", "homerun", "strikeout", "walk", "hbp",
   "sacrifice_fly", "sacrifice_bunt", "grounder", "fly", "error", "custom"]

/-- C5: the counter-delta rule — outcomes in {walk, hbp, sacrifice bunt,
sacrifice fly} leave at-bats alone, every other non-empty outcome adds the
multiplier to at-bats, hit outcomes add it to hits, walk/hbp add it to
walks, and the empty outcome contributes nothing; plus the two concrete
scenarios: a fresh player with results ["三振", "左安", "", ""] has
hits 1, atBats 2, walks 0, and overwriting slot 0 with "四球" gives
hits 1, atBats 1, walks 1. -/
theorem updateStats_delta_rule :
    (∀ o s (m : Int), o ∈ nonAtBatResults →
      (updateStatsForResult s o m).atBats = s.atBats) ∧
    (∀ o s (m : Int), o ∈ outcomeCodes → o ∉ nonAtBatResults →
      (updateStatsForResult s o m).atBats = s.atBats + m) ∧
    (∀ o s (m : Int), o ∈ hitResults →
      (updateStatsForResult s o m).hits = s.hits + m) ∧
    (∀ o s (m : Int), o ∈ (["walk", "hbp"] : List String) →
      (updateStatsForResult s o m).walks = s.walks + m) ∧
    (∀ s (m : Int), updateStatsForResult s "" m = s) ∧
    ((applyResult (applyResult (applyResult (applyResult emptyStats 0 "三振")
        1 "左安") 2 "") 3 "").hits = 1 ∧
     (applyResult (applyResult (applyResult (applyResult emptyStats 0 "三振")
        1 "左安") 2 "") 3 "").atBats = 2 ∧
     (applyResult (applyResult (applyResult (applyResult emptyStats 0 "三振")
        1 "左安") 2 "") 3 "").walks = 0) ∧
    ((applyResult (applyResult (applyResult (applyResult (applyResult emptyStats
        0 "三振") 1 "左安") 2 "") 3 "") 0 "四球").hits = 1 ∧
     (applyResult (applyResult (applyResult (applyResult (applyResult emptyStats
        0 "三振") 1 "左安") 2 "") 3 "") 0 "四球").atBats = 1 ∧
     (applyResult (applyResult (applyResult (applyResult (applyResult emptyStats
        0 "三振") 1 "左安") 2 "") 3 "") 0 "四球").walks = 1) := by
  refine ⟨fun o s m ho => ?_, fun o s m ho hno => ?_, fun o s m ho => ?_,
    fun o s m ho => ?_, fun s m => ?_, by decide, by decide⟩
  · fin_cases ho <;> rw [usfr_atBats, if_neg (by decide)] <;> exact add_zero _
  · fin_cases ho <;>
      first
        | (exact absurd (by decide) hno)
        | (rw [usfr_atBats, if_pos (by decide)])
  · fin_cases ho <;> rw [usfr_hits, if_pos (by decide)]
  · fin_cases ho <;> rw [usfr_walks, if_pos (by decide)]
  · unfold updateStatsForResult
    rw [if_neg (by decide), if_neg (by decide), if_neg (by decide)]

/-- C5, witness: the delta rule instantiated at concrete outcomes — a walk
leaves at-bats unchanged and a hit adds one to the hit counter. -/
theorem updateStats_delta_rule_witness :
    (updateStatsForResult emptyStats "walk" 1).atBats = emptyStats.atBats ∧
    (updateStatsForResult emptyStats "hit" 1).hits = emptyStats.hits + 1 :=
  ⟨updateStats_delta_rule.1 "walk" emptyStats 1 (by decide),
   updateStats_delta_rule.2.2.1 "hit" emptyStats 1 (by decide)⟩

/-- C6: deleting the roster entry at index `i` leaves every stats entry
below `i` unchanged, re-keys every entry above `i` down by one, and the
new map reads the old entry at `k + 1` for every `k ≥ i`, so the old entry
at `i` itself is gone; the roster drops position `i`. -/
theorem deletePlayer_rekey (players : List Player) (gs : GameState) (i : Nat) :
    (deletePlayer players gs i).1 = players.eraseIdx i ∧
    (∀ k, k < i → (deletePlayer players gs i).2.battingStats k = gs.battingStats k) ∧
    (∀ k, i < k → (deletePlayer players gs i).2.battingStats (k - 1) = gs.battingStats k) ∧
    (∀ k, i ≤ k → (deletePlayer players gs i).2.battingStats k = gs.battingStats (k + 1)) := by
  refine ⟨rfl, fun k hk => ?_, fun k hk => ?_, fun k hk => ?_⟩
  · show deleteStats gs.battingStats i k = gs.battingStats k
    unfold deleteStats
    rw [if_pos hk]
  · show deleteStats gs.battingStats i (k - 1) = gs.battingStats k
    unfold deleteStats
    rw [if_neg (by omega)]
    congr 1
    omega
  · show deleteStats gs.battingStats i k = gs.battingStats (k + 1)
    unfold deleteStats
    rw [if_neg (by omega)]

/-- C6, witness: deleting index 1 of a map with entries at 0 and 2 keeps
entry 0 in place and moves entry 2 down to key 1. -/
theorem deletePlayer_rekey_witness :
    (deletePlayer [] ⟨1, true, 0, fun k => if k = 0 then some ⟨1, 1, 1, []⟩
        else if k = 2 then some ⟨2, 2, 2, []⟩ else none⟩ 1).2.battingStats 0 =
      some ⟨1, 1, 1, []⟩ ∧
    (deletePlayer [] ⟨1, true, 0, fun k => if k = 0 then some ⟨1, 1, 1, []⟩
        else if k = 2 then some ⟨2, 2, 2, []⟩ else none⟩ 1).2.battingStats 1 =
      some ⟨2, 2, 2, []⟩ := by
  have h := deletePlayer_rekey [] ⟨1, true, 0, fun k => if k = 0 then some ⟨1, 1, 1, []⟩
    else if k = 2 then some ⟨2, 2, 2, []⟩ else none⟩ 1
  exact ⟨(h.2.1 0 (by decide)).trans (by decide),
    (h.2.2.1 2 (by decide)).trans (by decide)⟩

theorem getD_set_self (l : List Player) (i : Nat) (a d : Player) (h : i < l.length) :
    (l.set i a).getD i d = a := by
  rw [List.getD_eq_getElem?_getD, List.getElem?_set_self]
  · simp
  · simpa using h

theorem getD_set_ne (l : List Player) (i k : Nat) (a d : Player) (h : k ≠ i) :
    (l.set i a).getD k d = l.getD k d := by
  rw [List.getD_eq_getElem?_getD, List.getElem?_set_ne (by omega),
    ← List.getD_eq_getElem?_getD]

/-- C7: one `movePlayer` step with target position `n = i ∓ 1` inside the
roster swaps the stats entries at `i` and `n` and the roster entries at
`i` and `n` in the same operation: stats reads at `n` and `i` afterwards
yield the stats previously at `i` and `n`, every other index is untouched
in both structures, and the rest of the game state is unchanged. -/
theorem movePlayer_swap (players : List Player) (gs : GameState) (i n : Nat)
    (up : Bool) (hn : (n : Int) = if up then (i : Int) - 1 else (i : Int) + 1)
    (hi : i < players.length) (hnlen : n < players.length) :
    (movePlayer players gs i up).2.battingStats n = gs.battingStats i ∧
    (movePlayer players gs i up).2.battingStats i = gs.battingStats n ∧
    (∀ k, k ≠ i → k ≠ n →
      (movePlayer players gs i up).2.battingStats k = gs.battingStats k) ∧
    (movePlayer players gs i up).1.getD n defPlayer = players.getD i defPlayer ∧
    (movePlayer players gs i up).1.getD i defPlayer = players.getD n defPlayer ∧
    (∀ k, k ≠ i → k ≠ n →
      (movePlayer players gs i up).1.getD k defPlayer = players.getD k defPlayer) ∧
    (movePlayer players gs i up).2.inning = gs.inning ∧
    (movePlayer players gs i up).2.isTopHalf = gs.isTopHalf ∧
    (movePlayer players gs i up).2.currentBatterIndex = gs.currentBatterIndex := by
  have hne : i ≠ n := by
    cases up <;> simp only [Bool.false_eq_true, if_true, if_false] at hn <;> omega
  have hmv : movePlayer players gs i up =
      ((players.set i (players.getD n defPlayer)).set n (players.getD i defPlayer),
       { gs with battingStats := fun k => if k = n then gs.battingStats i
           else if k = i then gs.battingStats n else gs.battingStats k }) := by
    unfold movePlayer
    rw [← hn]
    rw [if_neg (by omega)]
    rw [Int.toNat_natCast]
  rw [hmv]
  refine ⟨by simp, ?_, fun k hki hkn => ?_, ?_, ?_, fun k hki hkn => ?_, rfl, rfl, rfl⟩
  · show (if i = n then gs.battingStats i
      else if i = i then gs.battingStats n else gs.battingStats i) = gs.battingStats n
    rw [if_neg hne, if_pos rfl]
  · show (if k = n then gs.battingStats i
      else if k = i then gs.battingStats n else gs.battingStats k) = gs.battingStats k
    rw [if_neg hkn, if_neg hki]
  · show ((players.set i (players.getD n defPlayer)).set n
      (players.getD i defPlayer)).getD n defPlayer = players.getD i defPlayer
    rw [getD_set_self]
    simpa using hnlen
  · show ((players.set i (players.getD n defPlayer)).set n
      (players.getD i defPlayer)).getD i defPlayer = players.getD n defPlayer
    rw [getD_set_ne _ _ _ _ _ hne, getD_set_self _ _ _ _ hi]
  · show ((players.set i (players.getD n defPlayer)).set n
      (players.getD i defPlayer)).getD k defPlayer = players.getD k defPlayer
    rw [getD_set_ne _ _ _ _ _ hkn, getD_set_ne _ _ _ _ _ hki]

/-- C7, witness: moving index 0 down in a two-player roster swaps both the
players and the stats entries at 0 and 1. -/
theorem movePlayer_swap_witness :
    (movePlayer [⟨"a", "投", "😊"⟩, ⟨"b", "捕", "😊"⟩]
      ⟨1, true, 0, fun k => if k = 0 then some ⟨1, 1, 0, []⟩ else none⟩ 0 false).2.battingStats 1 =
      some ⟨1, 1, 0, []⟩ ∧
    (movePlayer [⟨"a", "投", "😊"⟩, ⟨"b", "捕", "😊"⟩]
      ⟨1, true, 0, fun k => if k = 0 then some ⟨1, 1, 0, []⟩ else none⟩ 0 false).1.getD 1 defPlayer =
      ⟨"a", "投", "😊"⟩ := by
  have h := movePlayer_swap [⟨"a", "投", "😊"⟩, ⟨"b", "捕", "😊"⟩]
    ⟨1, true, 0, fun k => if k = 0 then some ⟨1, 1, 0, []⟩ else none⟩ 0 1 false
    (by decide) (by decide) (by decide)
  exact ⟨h.1.trans (by decide), h.2.2.2.1⟩

/-- C8: the team aggregator returns the summed counters, with
`avg = hits / atBats` (the exact rational the UI formats to three decimal
places) or the sentinel (`none`) when `atBats` is zero, and
`obp = (hits + walks) / (atBats + walks)` or the sentinel when that
denominator is zero; aggregating an empty collection yields totals 0, 0, 0
with both rates equal to the sentinel. -/
theorem getTeamStats_spec :
    getTeamStats [] = ⟨0, 0, 0, none, none⟩ ∧
    ∀ l : List BattingStats,
      (0 ≤ (getTeamStats l).totalAtBats →
        ((getTeamStats l).avg = none ↔ (getTeamStats l).totalAtBats = 0)) ∧
      (0 < (getTeamStats l).totalAtBats →
        (getTeamStats l).avg =
          some (((getTeamStats l).totalHits : ℚ) / ((getTeamStats l).totalAtBats : ℚ))) ∧
      (0 ≤ (getTeamStats l).totalAtBats + (getTeamStats l).totalWalks →
        ((getTeamStats l).obp = none ↔
          (getTeamStats l).totalAtBats + (getTeamStats l).totalWalks = 0)) ∧
      (0 < (getTeamStats l).totalAtBats + (getTeamStats l).totalWalks →
        (getTeamStats l).obp =
          some ((((getTeamStats l).totalHits : ℚ) + ((getTeamStats l).totalWalks : ℚ)) /
            (((getTeamStats l).totalAtBats : ℚ) + ((getTeamStats l).totalWalks : ℚ)))) := by
  refine ⟨by decide, fun l => ?_⟩
  simp only [getTeamStats]
  refine ⟨fun h0 => ?_, fun hpos => ?_, fun h0 => ?_, fun hpos => ?_⟩
  · split_ifs with h
    · simp only [reduceCtorEq, false_iff]
      omega
    · simp only [true_iff]
      omega
  · rw [if_pos hpos]
  · split_ifs with h
    · simp only [reduceCtorEq, false_iff]
      omega
    · simp only [true_iff]
      omega
  · rw [if_pos hpos]

/-- C8, witness: one stats line with 1 hit, 2 at-bats, 1 walk gives
avg 1/2 and obp 2/3. -/
theorem getTeamStats_spec_witness :
    (getTeamStats [⟨1, 2, 1, []⟩]).avg = some ((1 : ℚ) / 2) ∧
    (getTeamStats [⟨1, 2, 1, []⟩]).obp = some ((2 : ℚ) / 3) := by
  have h := getTeamStats_spec.2 [⟨1, 2, 1, []⟩]
  constructor
  · rw [h.2.1 (by decide)]
    norm_num [getTeamStats]
  · rw [h.2.2.2 (by decide)]
    norm_num [getTeamStats]

end Lions
